import Mathlib

/-!
Verification of the discharge-summary pipeline (`src/main.py`).

The Python program stores JSON-decoded session data, merges it with
human-submitted form fields in the `review` view, and flattens the result
into a template context.  We embed the JSON value space, the Python helper
functions (`format_multiline_field`, `parse_multiline`,
`validate_json_data`), the body of the `review` POST handler, the Gemini
retry loop of `get_json_from_pdf_via_gemini`, the brace-extraction step,
and the medication-slot context builder, and prove the spec claims about
them.
-/

/-- JSON-like values, as produced by `json.loads` and held in the Flask
session (`session['json_data']`).  Numbers are modelled as integers; the
claims under verification never touch fractional numbers. -/
inductive JVal where
  | null : JVal
  | bool : Bool → JVal
  | num : Int → JVal
  | str : String → JVal
  | arr : List JVal → JVal
  | obj : List (String × JVal) → JVal

/-- A JSON object: an insertion-ordered key/value list (Python `dict`). -/
abbrev JObj := List (String × JVal)

/-- Submitted form data (`request.form`): string keys to string values. -/
abbrev Form := List (String × String)

/-- Python truthiness on JSON values: `None`, `False`, `0`, `""`, `[]`,
and `{}` are falsy, everything else is truthy. -/
def JVal.falsy : JVal → Bool
  | .null => true
  | .bool b => !b
  | .num n => n == 0
  | .str s => s == ""
  | .arr xs => xs.isEmpty
  | .obj kvs => kvs.isEmpty

/-- Python `d.get(k)`: first binding of `k`, `None` (here `none`) if absent. -/
def jgetOpt (data : JObj) (k : String) : Option JVal :=
  match data with
  | [] => none
  | (k2, v) :: rest => if k2 == k then some v else jgetOpt rest k

/-- Python `d.get(k, default)`. -/
def jget (data : JObj) (k : String) (d : JVal) : JVal := (jgetOpt data k).getD d

/-- Python `request.form.get(k)`. -/
def fgetOpt (form : Form) (k : String) : Option String :=
  match form with
  | [] => none
  | (k2, v) :: rest => if k2 == k then some v else fgetOpt rest k

/-- Python `request.form.get(k, default)`. -/
def fget (form : Form) (k : String) (d : String) : String := (fgetOpt form k).getD d

/-- `.get(…)` on a value that must be a dict: `some` of its bindings if it
is one, `none` for the `AttributeError` Python raises otherwise. -/
def asObj : JVal → Option JObj
  | .obj kvs => some kvs
  | _ => none

/-- String methods (`.strip()`, `.upper()`) applied to a value that must
be a string; `none` models the `AttributeError` otherwise. -/
def asStr : JVal → Option String
  | .str s => some s
  | _ => none

/-- ASCII whitespace stripped by Python `str.strip()`. -/
def pyWs (c : Char) : Bool :=
  c == ' ' || c == '\t' || c == '\n' || c == '\r' || c == '\x0b' || c == '\x0c'

/-- Python `s.strip()` (ASCII whitespace; the pipeline only handles ASCII
form data). -/
def pyStrip (s : String) : String :=
  String.mk (((s.toList.dropWhile pyWs).reverse.dropWhile pyWs).reverse)

/-- Python `s.upper()` (ASCII letters, as used by the pipeline). -/
def pyUpper (s : String) : String := String.mk (s.toList.map Char.toUpper)

/-- Join a list of strings with a separator, Python `sep.join(xs)`. -/
def joinWith (sep : String) : List String → String
  | [] => ""
  | [x] => x
  | x :: xs => x ++ sep ++ joinWith sep xs

/-- Python `str(v)` for the value shapes reaching
`format_multiline_field`: a string stays itself; `None`/booleans/ints
print as in Python. -/
def jvalAsStr : JVal → String
  | .str s => s
  | .null => "None"
  | .bool b => if b then "True" else "False"
  | .num n => toString n
  | .arr _ => "[…]"
  | .obj _ => "\x7b…\x7d"

/-- `format_multiline_field` (main.py:121-124): falsy content gives `""`;
a list is newline-joined (raising `TypeError`, here `none`, when some
element is not a string); anything else is `str(…)`-converted. -/
def format_multiline_field (content : JVal) : Option String :=
  if content.falsy then some ""
  else
    match content with
    | .arr xs =>
        ((xs.mapM fun v => match v with | JVal.str s => some s | _ => none :
            Option (List String))).map (joinWith "\n")
    | v => some (jvalAsStr v)

/-- Split on newline characters; combined with the strip/filter in
`parse_multiline` this agrees with Python `str.splitlines()` there. -/
def pySplitLinesAux : List Char → List Char → List String
  | acc, [] => [String.mk acc.reverse]
  | acc, c :: cs =>
      if c == '\n' then String.mk acc.reverse :: pySplitLinesAux [] cs
      else pySplitLinesAux (c :: acc) cs

/-- `parse_multiline` (main.py:127-128): split into lines, strip each,
drop blank lines. -/
def parse_multiline (text : String) : List String :=
  ((pySplitLinesAux [] text.toList).map pyStrip).filter (fun l => l != "")

/-- Is `needle` a prefix of `hay`? -/
def listIsPrefix : List Char → List Char → Bool
  | [], _ => true
  | _ :: _, [] => false
  | n :: ns, h :: hs => n == h && listIsPrefix ns hs

/-- Does `hay` contain `needle` as a contiguous substring? -/
def listContainsSub (needle : List Char) : List Char → Bool
  | [] => needle.isEmpty
  | h :: hs => listIsPrefix needle (h :: hs) || listContainsSub needle hs

/-- Python `needle in hay` on strings: substring containment. -/
def strContains (hay needle : String) : Bool :=
  listContainsSub needle.toList hay.toList

/-- The advisory literal required in Diagnosis (main.py:224-225). -/
def adviceLiteral : String := "ADVICE: MEDICAL MANAGEMENT"

/-- The per-entry test of main.py:224:
`"ADVICE: MEDICAL MANAGEMENT" in d.upper()`. -/
def containsAdvice (d : String) : Bool := strContains (pyUpper d) adviceLiteral

/-- `list(dict.fromkeys(xs))` (main.py:223, 270): remove exact duplicates,
first occurrence wins, order preserved.  `seen` accumulates keys already
emitted. -/
def dedupKeepFirstAux (seen : List String) : List String → List String
  | [] => []
  | x :: xs =>
      if x ∈ seen then dedupKeepFirstAux seen xs
      else x :: dedupKeepFirstAux (x :: seen) xs

/-- `list(dict.fromkeys(xs))`. -/
def dedupKeepFirst (xs : List String) : List String := dedupKeepFirstAux [] xs

/-- main.py:219-226 applied to `edited["Diagnosis"]` (always a list there,
being `parse_multiline` output, so the `isinstance(diagnosis, str)` branch
of line 221-222 is dead in this flow): deduplicate, then append the
advisory literal unless some entry already contains it case-insensitively. -/
def ensureAdvice (diagnosis : List String) : List String :=
  let d := dedupKeepFirst diagnosis
  if d.any containsAdvice then d else d ++ [adviceLiteral]

/-- `validate_json_data` (main.py:131-136): required fields checked for
truthiness with `data.get(field)`; raises (here `.error`) naming the first
failing field. -/
def required_fields : List String := ["name", "age/gender", "admission_date", "discharge_date"]

/-- `validate_json_data` (main.py:131-136). -/
def validate_json_data (data : JObj) : Except String Unit :=
  match required_fields.find? (fun f => ((jgetOpt data f).getD .null).falsy) with
  | some f => .error ("Missing required field: " ++ f)
  | none => .ok ()

/-- One form-overridable multiline field of `edited` (main.py:194-198):
`parse_multiline(request.form.get(k, format_multiline_field(data.get(k, ""))))`.
The default argument is evaluated eagerly in Python, so a `TypeError` from
`format_multiline_field` (list with non-string entries) aborts the request
whether or not the form supplies `k`; `none` models that. -/
def multilineSrc (data : JObj) (form : Form) (k : String) : Option (List String) := do
  let base ← format_multiline_field (jget data k (.str ""))
  return parse_multiline (fget form k base)

/-- One entry of the `Vitals`/`Examination` sub-dicts (main.py:199-211):
form value if submitted, else `inner.get(k, "N/A")`. -/
def nestedEntry (inner : JObj) (form : Form) (k : String) : JVal :=
  match fgetOpt form k with
  | some s => .str s
  | none => jget inner k (.str "N/A")

/-- `edited["Vitals"]` (main.py:199-205): `data.get("Vitals", {}).get(…)`
requires `data["Vitals"]`, when present, to be a dict (else
`AttributeError`, i.e. `none`). -/
def vitalsObj (data : JObj) (form : Form) : Option JObj := do
  let inner ← asObj (jget data "Vitals" (.obj []))
  return [("TEMP", nestedEntry inner form "TEMP"),
          ("PR", nestedEntry inner form "PR"),
          ("BP", nestedEntry inner form "BP"),
          ("SPo2", nestedEntry inner form "SPo2"),
          ("RR", nestedEntry inner form "RR")]

/-- `edited["Examination"]` (main.py:206-211). -/
def examObj (data : JObj) (form : Form) : Option JObj := do
  let inner ← asObj (jget data "Examination" (.obj []))
  return [("CVS", nestedEntry inner form "CVS"),
          ("RS", nestedEntry inner form "RS"),
          ("CNS", nestedEntry inner form "CNS"),
          ("PA", nestedEntry inner form "PA")]

/-- `edited["ChiefComplaints"]` (main.py:197): form value if submitted,
else `data.get("ChiefComplaints", "N/A")`. -/
def chiefComplaintsVal (data : JObj) (form : Form) : JVal :=
  match fgetOpt form "ChiefComplaints" with
  | some s => .str s
  | none => jget data "ChiefComplaints" (.str "N/A")

/-- Per-slot form keys of the medication collection loop (main.py:234-238). -/
def tabFormKey (i : Nat) : String := s!"TAB{i}_form"

/-- `TAB{i}_name` form key. -/
def tabNameKey (i : Nat) : String := s!"TAB{i}_name"

/-- `DOSAGE{i}` form key. -/
def dosageKey (i : Nat) : String := s!"DOSAGE{i}"

/-- `FREQ{i}` form key. -/
def freqKey (i : Nat) : String := s!"FREQ{i}"

/-- `TOM{i}` form key. -/
def tomKey (i : Nat) : String := s!"TOM{i}"

/-- One iteration of the medication collection loop (main.py:233-246):
strip the five sub-fields (upper-casing the form tag), and append a row
iff any of them is non-empty.  In the appended row, `form_val or ""` and
`name_val or ""` are the values themselves (possibly `""`), while blank
dosage/freq/time each become `"N/A"`. -/
def medRow (form : Form) (i : Nat) : Option JVal :=
  let form_val := pyUpper (pyStrip (fget form (tabFormKey i) ""))
  let name_val := pyStrip (fget form (tabNameKey i) "")
  let dosage := pyStrip (fget form (dosageKey i) "")
  let freq := pyStrip (fget form (freqKey i) "")
  let time_val := pyStrip (fget form (tomKey i) "")
  if form_val != "" || name_val != "" || dosage != "" || freq != "" || time_val != "" then
    some (.obj [("form", .str form_val),
                ("name", .str name_val),
                ("dosage", .str (if dosage == "" then "N/A" else dosage)),
                ("freq", .str (if freq == "" then "N/A" else freq)),
                ("time", .str (if time_val == "" then "N/A" else time_val))])
  else none

/-- The rows appended by the loop `for i in range(1, 11)` (main.py:233). -/
def newMedRows (form : Form) : List JVal :=
  (List.range 10).filterMap (fun j => medRow form (j + 1))

/-- main.py:216-217: `meds_src = data.get("Medications")`;
`edited["Medications"] = meds_src if isinstance(meds_src, list) else []`. -/
def medsSrc (data : JObj) : List JVal :=
  match jgetOpt data "Medications" with
  | some (.arr xs) => xs
  | _ => []

/-- `edited["Medications"]` after the collection loop (main.py:216-246).
The safety net of main.py:229-230 is a no-op: the value is already a list. -/
def reviewMedications (data : JObj) (form : Form) : List JVal :=
  medsSrc data ++ newMedRows form

/-- The fallible sub-computations of the `edited` dict literal
(main.py:182-213): the four multiline fields and the two nested dicts.
The Diagnosis entry is post-processed by main.py:219-226 (`ensureAdvice`). -/
def reviewParts (data : JObj) (form : Form) :
    Option (List String × List String × List String × List String × JObj × JObj) := do
  let ds ← multilineSrc data form "Diagnosis"
  let rk ← multilineSrc data form "Riskfactors"
  let ph ← multilineSrc data form "PastHistory"
  let cs ← multilineSrc data form "Course"
  let vt ← vitalsObj data form
  let ex ← examObj data form
  return (ensureAdvice ds, rk, ph, cs, vt, ex)

/-- The `edited` record at main.py:246, after the Medications overwrite
(lines 216-217), the Diagnosis advisory step (lines 219-226) and the
medication collection loop (lines 233-246).  The identity fields are
`data.get(k, "N/A")` and never read the form. -/
def reviewCore (data : JObj) (form : Form)
    (p : List String × List String × List String × List String × JObj × JObj) : JObj :=
  [("umr", jget data "umr" (.str "N/A")),
   ("name", jget data "name" (.str "N/A")),
   ("age/gender", jget data "age/gender" (.str "N/A")),
   ("ad1", jget data "ad1" (.str "N/A")),
   ("ad2", jget data "ad2" (.str "N/A")),
   ("mob", jget data "mob" (.str "N/A")),
   ("admision_number", jget data "admision_number" (.str "N/A")),
   ("ward", jget data "ward" (.str "N/A")),
   ("admission_date", jget data "admission_date" (.str "N/A")),
   ("discharge_date", jget data "discharge_date" (.str "N/A")),
   ("Diagnosis", .arr (p.1.map .str)),
   ("Riskfactors", .arr (p.2.1.map .str)),
   ("PastHistory", .arr (p.2.2.1.map .str)),
   ("ChiefComplaints", chiefComplaintsVal data form),
   ("Course", .arr (p.2.2.2.1.map .str)),
   ("Vitals", .obj p.2.2.2.2.1),
   ("Examination", .obj p.2.2.2.2.2),
   ("Medications", .arr (reviewMedications data form))]

/-- The `review` POST handler's merge step (main.py:180-246): the final
`edited` record, or `none` when the construction raises. -/
def review (data : JObj) (form : Form) : Option JObj :=
  (reviewParts data form).map (reviewCore data form)

/-- The ten personal-identifier keys of `edited` (main.py:184-193). -/
def identityKeys : List String :=
  ["umr", "name", "age/gender", "ad1", "ad2", "mob",
   "admision_number", "ward", "admission_date", "discharge_date"]

/-- The retry loop of `get_json_from_pdf_via_gemini` (main.py:101-118).
`f i` is the outcome of the `try` body on attempt `i` (0-based):
`.ok v` when the request, envelope access, brace match and `json.loads`
all succeed, `.error e` for any exception.  The second component counts
the `time.sleep(retry_delay)` calls executed.  The first component is
`none` when the `for attempt in range(max_retries)` loop runs zero
iterations (max_retries = 0) and the function falls through returning
`None`. -/
def gemini_loop (f : Nat → Except String JVal) (max_retries : Nat)
    (attempt delays : Nat) : Option (Except String JVal) × Nat :=
  if _h : attempt < max_retries then
    match f attempt with
    | .ok v => (some (.ok v), delays)
    | .error e =>
        if attempt < max_retries - 1 then gemini_loop f max_retries (attempt + 1) (delays + 1)
        else (some (.error e), delays)
  else (none, delays)
termination_by max_retries - attempt
decreasing_by omega

/-- `get_json_from_pdf_via_gemini` (main.py:101-118), abstracted over the
per-attempt outcomes. -/
def get_json_from_pdf_via_gemini (f : Nat → Except String JVal) (max_retries : Nat) :
    Option (Except String JVal) × Nat :=
  gemini_loop f max_retries 0 0

/-- Index of the first occurrence of `c`. -/
def findIdxFrom : List Char → Char → Option Nat
  | [], _ => none
  | x :: xs, c => if x == c then some 0 else (findIdxFrom xs c).map (· + 1)

/-- Index of the last occurrence of `c`. -/
def lastIdxOf (cs : List Char) (c : Char) : Option Nat :=
  (findIdxFrom cs.reverse c).map (fun j => cs.length - 1 - j)

/-- `re.search(r"\x7b.*\x7d", raw_text, re.DOTALL)` (main.py:110): with a
greedy dot-matches-all `.*`, the match (if any) runs from the first
opening brace to the last closing brace of the whole text; `none` when
the pattern does not occur (in the source, `match.group(0)` then raises
and the attempt fails). -/
def braceMatch (s : String) : Option String :=
  let cs := s.toList
  match findIdxFrom cs '\x7b', lastIdxOf cs '\x7d' with
  | some i, some j => if i < j then some (String.mk ((cs.drop i).take (j - i + 1))) else none
  | _, _ => none

/-- JSON whitespace skipping for the `json.loads` model. -/
def skipWs (cs : List Char) : List Char :=
  cs.dropWhile (fun c => c == ' ' || c == '\t' || c == '\n' || c == '\r')

/-- Hex digit value, for `\uXXXX` escapes. -/
def hexVal (c : Char) : Option Nat :=
  if '0' ≤ c ∧ c ≤ '9' then some (c.toNat - '0'.toNat)
  else if 'a' ≤ c ∧ c ≤ 'f' then some (c.toNat - 'a'.toNat + 10)
  else if 'A' ≤ c ∧ c ≤ 'F' then some (c.toNat - 'A'.toNat + 10)
  else none

/-- Decoded character of a single-character JSON escape. -/
def escChar (e : Char) : Option Char :=
  if e == '"' then some '"'
  else if e == '\\' then some '\\'
  else if e == '/' then some '/'
  else if e == 'b' then some '\x08'
  else if e == 'f' then some '\x0c'
  else if e == 'n' then some '\n'
  else if e == 'r' then some '\r'
  else if e == 't' then some '\t'
  else none

/-- Parse the body of a JSON string literal (after the opening quote),
returning the decoded characters and the rest after the closing quote. -/
def parseStrBody : List Char → Option (List Char × List Char)
  | [] => none
  | '"' :: cs => some ([], cs)
  | '\\' :: e :: cs2 =>
      if e == 'u' then
        match cs2 with
        | h1 :: h2 :: h3 :: h4 :: cs3 =>
            match hexVal h1, hexVal h2, hexVal h3, hexVal h4 with
            | some v1, some v2, some v3, some v4 =>
                (parseStrBody cs3).map
                  (fun p => (Char.ofNat (((v1 * 16 + v2) * 16 + v3) * 16 + v4) :: p.1, p.2))
            | _, _, _, _ => none
        | _ => none
      else
        match escChar e with
        | some d => (parseStrBody cs2).map (fun p => (d :: p.1, p.2))
        | none => none
  | c :: cs => (parseStrBody cs).map (fun p => (c :: p.1, p.2))

/-- Parse a run of decimal digits. -/
def parseDigits (cs : List Char) : Option (Nat × List Char) :=
  let ds := cs.takeWhile Char.isDigit
  if ds.isEmpty then none
  else some (ds.foldl (fun acc c => acc * 10 + (c.toNat - '0'.toNat)) 0, cs.drop ds.length)

mutual

/-- A model of `json.loads` (main.py:112) for the data this pipeline
handles, by fueled recursive descent: objects, arrays, strings with
escapes, integers, `true`/`false`/`null`.  Fractional and exponent
number forms are outside the model (the session records carry none). -/
def parseJVal (fuel : Nat) (cs : List Char) : Option (JVal × List Char) :=
  match fuel with
  | 0 => none
  | fuel + 1 =>
    match skipWs cs with
    | [] => none
    | c :: rest =>
        if c == '"' then
          (parseStrBody rest).map (fun p => (JVal.str (String.mk p.1), p.2))
        else if c == '\x7b' then
          match skipWs rest with
          | '\x7d' :: r => some (.obj [], r)
          | r0 => parseMembers fuel r0 []
        else if c == '[' then
          match skipWs rest with
          | ']' :: r => some (.arr [], r)
          | r0 => parseElems fuel r0 []
        else if c == 't' then
          match rest with
          | 'r' :: 'u' :: 'e' :: r => some (.bool true, r)
          | _ => none
        else if c == 'f' then
          match rest with
          | 'a' :: 'l' :: 's' :: 'e' :: r => some (.bool false, r)
          | _ => none
        else if c == 'n' then
          match rest with
          | 'u' :: 'l' :: 'l' :: r => some (.null, r)
          | _ => none
        else if c == '-' then
          (parseDigits rest).map (fun p => (JVal.num (-(p.1 : Int)), p.2))
        else if c.isDigit then
          (parseDigits (c :: rest)).map (fun p => (JVal.num (p.1 : Int), p.2))
        else none

/-- Parse the members of a JSON object after its opening brace. -/
def parseMembers (fuel : Nat) (cs : List Char) (acc : List (String × JVal)) :
    Option (JVal × List Char) :=
  match fuel with
  | 0 => none
  | fuel + 1 =>
    match skipWs cs with
    | '"' :: rest => do
        let p1 ← parseStrBody rest
        match skipWs p1.2 with
        | ':' :: r2 => do
            let p2 ← parseJVal fuel r2
            let acc2 := acc ++ [(String.mk p1.1, p2.1)]
            match skipWs p2.2 with
            | ',' :: r4 => parseMembers fuel r4 acc2
            | '\x7d' :: r4 => some (.obj acc2, r4)
            | _ => none
        | _ => none
    | _ => none

/-- Parse the elements of a JSON array after its opening bracket. -/
def parseElems (fuel : Nat) (cs : List Char) (acc : List JVal) :
    Option (JVal × List Char) :=
  match fuel with
  | 0 => none
  | fuel + 1 => do
    let p1 ← parseJVal fuel cs
    let acc2 := acc ++ [p1.1]
    match skipWs p1.2 with
    | ',' :: r2 => parseElems fuel r2 acc2
    | ']' :: r2 => some (.arr acc2, r2)
    | _ => none

end

/-- `json.loads(s)`: parse one value and require only whitespace after. -/
def jsonLoads (s : String) : Option JVal :=
  match parseJVal (s.length + 1) s.toList with
  | some p => if (skipWs p.2).isEmpty then some p.1 else none
  | none => none

/-- The four context values emitted for one medication slot
(main.py:331-340): keys `TAB{i+1}`, `DOSAGE{i+1}`, `FREQ{i+1}`,
`TOM{i+1}`. -/
structure SlotOut where
  tab : String
  dosage : JVal
  freq : JVal
  tom : JVal

/-- One iteration of the medications placeholder loop (main.py:332-340),
for 0-based loop index `i` (context keys use `i + 1`).  `meds` is
`edited.get("Medications") or []` (main.py:331), a list for every record
this handler produces.  `med.get("form", "").strip()` requires a string
(else `AttributeError`, modelled as `none`); `DOSAGE` falls back to
`"N/A"` when `med.get("dosage")` is falsy, while `FREQ`/`TOM` use only
the key-absence default of `.get`. -/
def slotContext (meds : List JVal) (i : Nat) : Option SlotOut := do
  let med ← asObj (meds.getD i (.obj []))
  let form_val := pyStrip (← asStr (jget med "form" (.str "")))
  let name_val := pyStrip (← asStr (jget med "name" (.str "")))
  let full_name :=
    if form_val != "" || name_val != "" then pyStrip (form_val ++ " " ++ name_val) else ""
  let dosage :=
    if ((jgetOpt med "dosage").getD .null).falsy then JVal.str "N/A"
    else jget med "dosage" (.str "N/A")
  return ⟨full_name, dosage, jget med "freq" (.str "N/A"), jget med "time" (.str "N/A")⟩

/-! ## Helper lemmas -/

lemma review_eq_some {data : JObj} {form : Form} {out : JObj}
    (h : review data form = some out) :
    ∃ p, reviewParts data form = some p ∧ reviewCore data form p = out := by
  unfold review at h
  exact Option.map_eq_some'.mp h

lemma reviewCore_identity_lookup (data : JObj) (form : Form)
    (p : List String × List String × List String × List String × JObj × JObj)
    (k : String) (hk : k ∈ identityKeys) :
    jgetOpt (reviewCore data form p) k = some (jget data k (.str "N/A")) := by
  simp only [identityKeys, List.mem_cons, List.not_mem_nil, or_false] at hk
  rcases hk with rfl | rfl | rfl | rfl | rfl | rfl | rfl | rfl | rfl | rfl <;> rfl

/-- C1: for every original extracted record and every submitted form, each
of the ten identity fields of the `review` output is the original record's
value for that key (with `"N/A"` only when the key is absent from the
original), and the form values have no effect: two runs on the same record
with different forms agree on every identity field. -/
theorem review_identity_fields_immutable
    (data : JObj) (form form2 : Form) (out out2 : JObj) (k : String)
    (hk : k ∈ identityKeys)
    (h : review data form = some out) (h2 : review data form2 = some out2) :
    jgetOpt out k = some (jget data k (.str "N/A")) ∧ jgetOpt out k = jgetOpt out2 k := by
  obtain ⟨p, _, rfl⟩ := review_eq_some h
  obtain ⟨p2, _, rfl⟩ := review_eq_some h2
  refine ⟨reviewCore_identity_lookup data form p k hk, ?_⟩
  rw [reviewCore_identity_lookup data form p k hk, reviewCore_identity_lookup data form2 p2 k hk]

/-- Concrete instance of C1: a record with `umr = "U1"`, one run with a
form that tries to overwrite `umr` and one with an empty form. -/
def dataW1 : JObj := [("umr", .str "U1")]

/-- A form submission attempting to overwrite an identity field. -/
def formW1 : Form := [("umr", "HACK")]

/-- The merged record for `dataW1`/`formW1`. -/
def outW1 : JObj := (review dataW1 formW1).getD []

/-- The merged record for `dataW1` and the empty form. -/
def outW2 : JObj := (review dataW1 []).getD []

theorem review_identity_fields_immutable_witness :
    jgetOpt outW1 "umr" = some (jget dataW1 "umr" (.str "N/A")) ∧
      jgetOpt outW1 "umr" = jgetOpt outW2 "umr" :=
  review_identity_fields_immutable dataW1 formW1 [] outW1 outW2 "umr"
    (by simp [identityKeys]) rfl rfl

lemma required_sub_identity : ∀ f ∈ required_fields, f ∈ identityKeys := by
  intro f hf
  simp only [required_fields, List.mem_cons, List.not_mem_nil, or_false] at hf
  rcases hf with rfl | rfl | rfl | rfl <;> simp [identityKeys]

lemma review_required_falsy_iff {data : JObj} {form : Form} {out : JObj}
    (h : review data form = some out) :
    ∀ f ∈ required_fields,
      (((jgetOpt out f).getD .null).falsy = true ↔
        ∃ v, jgetOpt data f = some v ∧ v.falsy = true) := by
  intro f hf
  obtain ⟨p, _, rfl⟩ := review_eq_some h
  rw [reviewCore_identity_lookup data form p f (required_sub_identity f hf)]
  simp only [Option.getD_some, jget]
  cases hd : jgetOpt data f with
  | none => simp [JVal.falsy]
  | some v => simp

/-- C10: on the merged record, `validate_json_data` raises its
"Missing required field" error iff the session record maps one of the
four required keys to a present-but-falsy value; an absent key always
passes, because the identity defaults substitute `"N/A"` (truthy) first. -/
theorem validate_required_fields_iff
    (data : JObj) (form : Form) (out : JObj) (h : review data form = some out) :
    (∃ msg, validate_json_data out = .error msg) ↔
      ∃ f ∈ required_fields, ∃ v, jgetOpt data f = some v ∧ v.falsy = true := by
  have hkey := review_required_falsy_iff h
  constructor
  · rintro ⟨msg, hmsg⟩
    unfold validate_json_data at hmsg
    cases hfind : required_fields.find? (fun f => ((jgetOpt out f).getD .null).falsy) with
    | none => rw [hfind] at hmsg; exact absurd hmsg (by simp)
    | some f =>
        have hp : ((jgetOpt out f).getD .null).falsy = true := by
          simpa using List.find?_some hfind
        exact ⟨f, List.mem_of_find?_eq_some hfind,
          (hkey f (List.mem_of_find?_eq_some hfind)).mp hp⟩
  · rintro ⟨f, hf, v, hv, hfal⟩
    cases hfind : required_fields.find? (fun f => ((jgetOpt out f).getD .null).falsy) with
    | none =>
        have hnone := List.find?_eq_none.mp hfind f hf
        exact absurd ((hkey f hf).mpr ⟨v, hv, hfal⟩) (by simpa using hnone)
    | some g =>
        refine ⟨"Missing required field: " ++ g, ?_⟩
        unfold validate_json_data
        rw [hfind]

/-- A session record whose `name` is present but empty. -/
def dataC10 : JObj := [("name", .str "")]

/-- The merged record for `dataC10` and the empty form. -/
def outC10 : JObj := (review dataC10 []).getD []

theorem validate_required_fields_iff_witness :
    ∃ msg, validate_json_data outC10 = .error msg :=
  (validate_required_fields_iff dataC10 [] outC10 rfl).mpr
    ⟨"name", by simp [required_fields], .str "", rfl, rfl⟩

/-- A record accepted by validation whose `umr` is present but empty. -/
def dataC5 : JObj :=
  [("umr", .str ""), ("name", .str "John"), ("age/gender", .str "45/M"),
   ("admission_date", .str "2024-01-05"), ("discharge_date", .str "2024-01-10")]

/-- Counterexample to C5: `dataC5` passes required-field validation, yet
the merged record's scalar field `umr` is the empty string, not `"N/A"`:
a present-but-falsy source value is not replaced by the sentinel. -/
theorem review_scalar_no_empty_cex :
    (review dataC5 []).bind (fun o => jgetOpt o "umr") = some (.str "") ∧
      (review dataC5 []).map validate_json_data = some (.ok ()) ∧
      ("" : String) ≠ "N/A" :=
  ⟨rfl, rfl, by decide⟩

/-- The merged record for `dataC5` and the empty form. -/
def outC5 : JObj := (review dataC5 []).getD []

/-- C5 amended: an identity-field key absent from the source record
becomes the sentinel `"N/A"`, but a present value — falsy or not — is
passed through unchanged, so empty strings can survive in non-validated
scalar fields; only the four validated fields are guaranteed non-falsy,
and only in records that pass `validate_json_data`. -/
theorem review_scalar_defaults_amended
    (data : JObj) (form : Form) (out : JObj) (h : review data form = some out) :
    (∀ k ∈ identityKeys, jgetOpt data k = none → jgetOpt out k = some (.str "N/A")) ∧
    (∀ k ∈ identityKeys, ∀ v, jgetOpt data k = some v → jgetOpt out k = some v) ∧
    (validate_json_data out = .ok () →
      ∀ f ∈ required_fields, ∃ v, jgetOpt out f = some v ∧ v.falsy = false) := by
  obtain ⟨p, hp, rfl⟩ := review_eq_some h
  refine ⟨?_, ?_, ?_⟩
  · intro k hk hd
    rw [reviewCore_identity_lookup data form p k hk]
    simp [jget, hd]
  · intro k hk v hd
    rw [reviewCore_identity_lookup data form p k hk]
    simp [jget, hd]
  · intro hok f hf
    refine ⟨jget data f (.str "N/A"),
      reviewCore_identity_lookup data form p f (required_sub_identity f hf), ?_⟩
    unfold validate_json_data at hok
    cases hfind : required_fields.find?
        (fun f => ((jgetOpt (reviewCore data form p) f).getD .null).falsy) with
    | some g => rw [hfind] at hok; exact absurd hok (by simp)
    | none =>
        have hnp := List.find?_eq_none.mp hfind f hf
        rw [reviewCore_identity_lookup data form p f (required_sub_identity f hf)] at hnp
        simpa using hnp

theorem review_scalar_defaults_amended_witness :
    jgetOpt outC5 "mob" = some (.str "N/A") :=
  (review_scalar_defaults_amended dataC5 [] outC5 rfl).1 "mob" (by simp [identityKeys]) rfl

/-- Number of entries matching the advisory check of main.py:224. -/
def countAdvice (l : List String) : Nat := l.countP containsAdvice

lemma containsAdvice_literal : containsAdvice adviceLiteral = true := rfl

lemma dedupKeepFirstAux_nodup (l : List String) :
    ∀ seen, (dedupKeepFirstAux seen l).Nodup ∧
      ∀ x ∈ dedupKeepFirstAux seen l, x ∉ seen := by
  induction l with
  | nil => intro seen; simp [dedupKeepFirstAux]
  | cons x xs ih =>
      intro seen
      unfold dedupKeepFirstAux
      by_cases hx : x ∈ seen
      · simp only [hx, if_true]
        exact (ih seen)
      · simp only [hx, if_false]
        obtain ⟨hnd, hout⟩ := ih (x :: seen)
        refine ⟨List.nodup_cons.mpr ⟨fun hmem => ?_, hnd⟩, ?_⟩
        · exact absurd (List.mem_cons_self x seen) (hout x hmem)
        · intro y hy
          rcases List.mem_cons.mp hy with rfl | hy2
          · exact hx
          · intro hsy
            exact (hout y hy2) (List.mem_cons_of_mem x hsy)

lemma dedupKeepFirstAux_sublist (l : List String) :
    ∀ seen, List.Sublist (dedupKeepFirstAux seen l) l := by
  induction l with
  | nil => intro seen; simp [dedupKeepFirstAux]
  | cons x xs ih =>
      intro seen
      unfold dedupKeepFirstAux
      by_cases hx : x ∈ seen
      · simp only [hx, if_true]
        exact (ih seen).cons x
      · simp only [hx, if_false]
        exact (ih (x :: seen)).cons₂ x

lemma dedupKeepFirst_nodup (l : List String) : (dedupKeepFirst l).Nodup :=
  (dedupKeepFirstAux_nodup l []).1

lemma dedupKeepFirst_sublist (l : List String) : List.Sublist (dedupKeepFirst l) l :=
  dedupKeepFirstAux_sublist l []

lemma countAdvice_ensureAdvice_pos (l : List String) :
    0 < countAdvice (ensureAdvice l) := by
  unfold ensureAdvice countAdvice
  cases ha : (dedupKeepFirst l).any containsAdvice with
  | true =>
      simp only [ha, if_true]
      obtain ⟨y, hy, hcy⟩ := List.any_eq_true.mp ha
      exact List.countP_pos_iff.mpr ⟨y, hy, hcy⟩
  | false =>
      simp only [ha, Bool.false_eq_true, if_false, List.countP_append]
      have h1 : List.countP containsAdvice [adviceLiteral] = 1 := by
        simp [List.countP, List.countP.go, containsAdvice_literal]
      omega

lemma ensureAdvice_nodup (l : List String) : (ensureAdvice l).Nodup := by
  unfold ensureAdvice
  cases ha : (dedupKeepFirst l).any containsAdvice with
  | true =>
      simp only [ha, if_true]
      exact dedupKeepFirst_nodup l
  | false =>
      simp only [ha, Bool.false_eq_true, if_false]
      have hnotmem : adviceLiteral ∉ dedupKeepFirst l := by
        intro hmem
        have : (dedupKeepFirst l).any containsAdvice = true :=
          List.any_eq_true.mpr ⟨adviceLiteral, hmem, containsAdvice_literal⟩
        rw [ha] at this
        exact Bool.false_ne_true this
      simpa [List.nodup_append] using ⟨dedupKeepFirst_nodup l, hnotmem⟩

lemma reviewParts_fst {data : JObj} {form : Form}
    {p : List String × List String × List String × List String × JObj × JObj}
    (h : reviewParts data form = some p) :
    ∃ ds, multilineSrc data form "Diagnosis" = some ds ∧ p.1 = ensureAdvice ds := by
  unfold reviewParts at h
  simp only [bind, Option.bind_eq_some, pure, Option.some_inj] at h
  obtain ⟨ds, hds, rk, _, ph, _, cs, _, vt, _, ex, _, hp⟩ := h
  exact ⟨ds, hds, by rw [← hp]⟩

lemma reviewCore_diagnosis (data : JObj) (form : Form)
    (p : List String × List String × List String × List String × JObj × JObj) :
    jgetOpt (reviewCore data form p) "Diagnosis" = some (.arr (p.1.map .str)) := rfl

/-- A record whose Diagnosis already holds the advisory in two case
variants. -/
def dataC2 : JObj :=
  [("Diagnosis", .arr [.str "ADVICE: MEDICAL MANAGEMENT",
                       .str "advice: medical management"])]

/-- Counterexample to C2: when the original Diagnosis holds the advisory
literal in two case variants, the merged Diagnosis keeps both (exact-match
dedup does not collapse case variants and nothing is appended), so it has
two entries matching "ADVICE: MEDICAL MANAGEMENT" case-insensitively, not
exactly one. -/
theorem review_diagnosis_one_advice_cex :
    (review dataC2 []).bind (fun o => jgetOpt o "Diagnosis")
      = some (.arr [.str "ADVICE: MEDICAL MANAGEMENT",
                    .str "advice: medical management"]) ∧
    countAdvice ["ADVICE: MEDICAL MANAGEMENT", "advice: medical management"] = 2 :=
  ⟨rfl, rfl⟩

/-- C2 amended: the merged Diagnosis always contains at least one entry
matching the advisory case-insensitively (not exactly one: distinct case
variants may both survive); exact duplicates are removed with the first
occurrence winning and order preserved (the deduplicated list is a
sublist of its source and has no duplicates), and the literal is appended
exactly when no entry contains it case-insensitively. -/
theorem review_diagnosis_advice_amended
    (data : JObj) (form : Form) (out : JObj) (h : review data form = some out) :
    ∃ src : List String,
      jgetOpt out "Diagnosis" = some (.arr ((ensureAdvice src).map .str)) ∧
      0 < countAdvice (ensureAdvice src) ∧
      (ensureAdvice src).Nodup ∧
      List.Sublist (dedupKeepFirst src) src ∧
      ((dedupKeepFirst src).any containsAdvice = true →
        ensureAdvice src = dedupKeepFirst src) ∧
      ((dedupKeepFirst src).any containsAdvice = false →
        ensureAdvice src = dedupKeepFirst src ++ [adviceLiteral]) := by
  obtain ⟨p, hp, rfl⟩ := review_eq_some h
  obtain ⟨ds, _, hfst⟩ := reviewParts_fst hp
  refine ⟨ds, ?_, countAdvice_ensureAdvice_pos ds, ensureAdvice_nodup ds,
    dedupKeepFirst_sublist ds, ?_, ?_⟩
  · rw [reviewCore_diagnosis, hfst]
  · intro ha; unfold ensureAdvice; simp only [ha, if_true]
  · intro ha; unfold ensureAdvice; simp only [ha, Bool.false_eq_true, if_false]

/-- The merged record for `dataC2` and the empty form. -/
def outC2 : JObj := (review dataC2 []).getD []

theorem review_diagnosis_advice_amended_witness :
    ∃ src : List String,
      jgetOpt outC2 "Diagnosis" = some (.arr ((ensureAdvice src).map .str)) ∧
      0 < countAdvice (ensureAdvice src) := by
  obtain ⟨src, h1, h2, _⟩ := review_diagnosis_advice_amended dataC2 [] outC2 rfl
  exact ⟨src, h1, h2⟩

lemma reviewCore_medications (data : JObj) (form : Form)
    (p : List String × List String × List String × List String × JObj × JObj) :
    jgetOpt (reviewCore data form p) "Medications"
      = some (.arr (reviewMedications data form)) := rfl

lemma newMedRows_length_le (form : Form) : (newMedRows form).length ≤ 10 := by
  calc (newMedRows form).length ≤ (List.range 10).length := List.length_filterMap_le _ _
    _ = 10 := by simp

/-- A record that already carries eleven medications. -/
def dataC3 : JObj := [("Medications", .arr (List.replicate 11 (.str "m")))]

/-- Counterexample to C3: with eleven medications in the original record
and an empty review form, the merged Medications list still has eleven
entries — the merge never truncates to ten. -/
theorem review_medications_cap_cex :
    (review dataC3 []).bind (fun o => jgetOpt o "Medications")
      = some (.arr (List.replicate 11 (.str "m"))) ∧
    (List.replicate 11 (JVal.str "m")).length = 11 ∧ ¬(11 ≤ 10) :=
  ⟨rfl, by simp, by decide⟩

/-- C3 amended: the merged Medications field is always a list (never a
string, null, or absent), but its cap is relative: at most the original
list's length (0 when the original field is not a list) plus the up to 10
freshly submitted rows — not an absolute cap of 10. -/
theorem review_medications_list_bounded_amended
    (data : JObj) (form : Form) (out : JObj) (h : review data form = some out) :
    ∃ ms : List JVal, jgetOpt out "Medications" = some (.arr ms) ∧
      ms.length ≤ (medsSrc data).length + 10 := by
  obtain ⟨p, _, rfl⟩ := review_eq_some h
  refine ⟨reviewMedications data form, reviewCore_medications data form p, ?_⟩
  unfold reviewMedications
  have := newMedRows_length_le form
  simp only [List.length_append]
  omega

/-- The merged record for `dataC3` and the empty form. -/
def outC3 : JObj := (review dataC3 []).getD []

theorem review_medications_list_bounded_amended_witness :
    ∃ ms : List JVal, jgetOpt outC3 "Medications" = some (.arr ms) ∧
      ms.length ≤ (medsSrc dataC3).length + 10 :=
  review_medications_list_bounded_amended dataC3 [] outC3 rfl

/-- C4: the merged Medications list never exceeds the original record's
Medications length (taken as 0 when that field is not a list) plus 10. -/
theorem review_medications_length_bound
    (data : JObj) (form : Form) (out : JObj) (h : review data form = some out)
    (ms : List JVal) (hm : jgetOpt out "Medications" = some (.arr ms)) :
    ms.length ≤ (medsSrc data).length + 10 := by
  obtain ⟨p, _, rfl⟩ := review_eq_some h
  rw [reviewCore_medications data form p] at hm
  have hms : reviewMedications data form = ms := by
    injection hm with hm2
    injection hm2
  rw [← hms]
  unfold reviewMedications
  have := newMedRows_length_le form
  simp only [List.length_append]
  omega

/-- A record whose Medications field is the string "N/A" (not a list). -/
def dataC4 : JObj := [("Medications", .str "N/A")]

/-- A review form submitting one new medication row in slot 1. -/
def formC4 : Form := [("TAB1_name", "DOLO 650")]

/-- The merged record for `dataC4`/`formC4`. -/
def outC4 : JObj := (review dataC4 formC4).getD []

/-- The merged Medications list for `dataC4`/`formC4`. -/
def msC4 : List JVal := reviewMedications dataC4 formC4

theorem review_medications_length_bound_witness :
    msC4.length ≤ (medsSrc dataC4).length + 10 :=
  review_medications_length_bound dataC4 formC4 outC4 rfl msC4 rfl

lemma gemini_loop_stop (f : Nat → Except String JVal) (mr attempt delays : Nat)
    (h : ¬ attempt < mr) : gemini_loop f mr attempt delays = (none, delays) := by
  rw [gemini_loop.eq_def, dif_neg h]

lemma gemini_loop_ok (f : Nat → Except String JVal) (mr attempt delays : Nat) (v : JVal)
    (h : attempt < mr) (hv : f attempt = .ok v) :
    gemini_loop f mr attempt delays = (some (.ok v), delays) := by
  rw [gemini_loop.eq_def, dif_pos h, hv]

lemma gemini_loop_err_retry (f : Nat → Except String JVal) (mr attempt delays : Nat)
    (e : String) (h : attempt < mr) (he : f attempt = .error e) (h2 : attempt < mr - 1) :
    gemini_loop f mr attempt delays = gemini_loop f mr (attempt + 1) (delays + 1) := by
  rw [gemini_loop.eq_def, dif_pos h, he]
  simp only [if_pos h2]

lemma gemini_loop_err_stop (f : Nat → Except String JVal) (mr attempt delays : Nat)
    (e : String) (h : attempt < mr) (he : f attempt = .error e) (h2 : ¬ attempt < mr - 1) :
    gemini_loop f mr attempt delays = (some (.error e), delays) := by
  rw [gemini_loop.eq_def, dif_pos h, he]
  simp only [if_neg h2]

lemma gemini_loop_congr (f g : Nat → Except String JVal) (max_retries : Nat) :
    ∀ j attempt delays, max_retries - attempt = j →
      (∀ i, i < max_retries → f i = g i) →
      gemini_loop f max_retries attempt delays = gemini_loop g max_retries attempt delays := by
  intro j
  induction j with
  | zero =>
      intro attempt delays hj _
      rw [gemini_loop_stop f _ _ _ (by omega), gemini_loop_stop g _ _ _ (by omega)]
  | succ j ih =>
      intro attempt delays hj hfg
      have hlt : attempt < max_retries := by omega
      cases hfa : f attempt with
      | ok v =>
          rw [gemini_loop_ok f _ _ _ v hlt hfa,
              gemini_loop_ok g _ _ _ v hlt (by rw [← hfg attempt hlt]; exact hfa)]
      | error e =>
          by_cases h2 : attempt < max_retries - 1
          · rw [gemini_loop_err_retry f _ _ _ e hlt hfa h2,
                gemini_loop_err_retry g _ _ _ e hlt (by rw [← hfg attempt hlt]; exact hfa) h2]
            exact ih (attempt + 1) (delays + 1) (by omega) hfg
          · rw [gemini_loop_err_stop f _ _ _ e hlt hfa h2,
                gemini_loop_err_stop g _ _ _ e hlt (by rw [← hfg attempt hlt]; exact hfa) h2]

lemma gemini_loop_success (f : Nat → Except String JVal) (max_retries : Nat)
    (a : JVal) :
    ∀ j attempt delays, attempt + j < max_retries →
      (∀ i, i < j → ∃ e, f (attempt + i) = .error e) →
      f (attempt + j) = .ok a →
      gemini_loop f max_retries attempt delays = (some (.ok a), delays + j) := by
  intro j
  induction j with
  | zero =>
      intro attempt delays hlt _ hok
      rw [Nat.add_zero] at hok
      exact gemini_loop_ok f max_retries attempt delays a (by omega) hok
  | succ j ih =>
      intro attempt delays hlt herr hok
      obtain ⟨e0, he0⟩ := herr 0 (by omega)
      rw [Nat.add_zero] at he0
      rw [gemini_loop_err_retry f max_retries attempt delays e0 (by omega) he0 (by omega)]
      have hrec := ih (attempt + 1) (delays + 1) (by omega)
        (fun i hi => by
          obtain ⟨e, he⟩ := herr (i + 1) (by omega)
          exact ⟨e, by rw [show attempt + 1 + i = attempt + (i + 1) by omega]; exact he⟩)
        (by rw [show attempt + 1 + j = attempt + (j + 1) by omega]; exact hok)
      rw [hrec]
      congr 1
      omega

lemma gemini_loop_exhaust (f : Nat → Except String JVal) (max_retries : Nat)
    (e : String) :
    ∀ j attempt delays, attempt + j + 1 = max_retries →
      (∀ i, i < j → ∃ e2, f (attempt + i) = .error e2) →
      f (attempt + j) = .error e →
      gemini_loop f max_retries attempt delays = (some (.error e), delays + j) := by
  intro j
  induction j with
  | zero =>
      intro attempt delays hj _ herr0
      rw [Nat.add_zero] at herr0
      exact gemini_loop_err_stop f max_retries attempt delays e (by omega) herr0 (by omega)
  | succ j ih =>
      intro attempt delays hj herr hlast
      obtain ⟨e0, he0⟩ := herr 0 (by omega)
      rw [Nat.add_zero] at he0
      rw [gemini_loop_err_retry f max_retries attempt delays e0 (by omega) he0 (by omega)]
      have hrec := ih (attempt + 1) (delays + 1) (by omega)
        (fun i hi => by
          obtain ⟨e2, he2⟩ := herr (i + 1) (by omega)
          exact ⟨e2, by rw [show attempt + 1 + i = attempt + (i + 1) by omega]; exact he2⟩)
        (by rw [show attempt + 1 + j = attempt + (j + 1) by omega]; exact hlast)
      rw [hrec]
      congr 1
      omega

/-- C6: the Gemini call makes at most `max_retries` attempts — its result
depends only on the outcomes of attempts 0..max_retries-1; if the first
k-1 attempts fail and attempt k (k ≤ max_retries) succeeds, the parsed
value is returned after exactly k-1 retry delays; and when all
`max_retries` attempts fail, the last attempt's error propagates after
max_retries - 1 delays (no further retry or delay). -/
theorem gemini_retry_semantics (f g : Nat → Except String JVal) (max_retries : Nat) :
    ((∀ i, i < max_retries → f i = g i) →
      get_json_from_pdf_via_gemini f max_retries = get_json_from_pdf_via_gemini g max_retries) ∧
    (∀ k a, 1 ≤ k → k ≤ max_retries →
      (∀ i, i < k - 1 → ∃ e, f i = .error e) → f (k - 1) = .ok a →
      get_json_from_pdf_via_gemini f max_retries = (some (.ok a), k - 1)) ∧
    (∀ e, 1 ≤ max_retries →
      (∀ i, i < max_retries - 1 → ∃ e2, f i = .error e2) →
      f (max_retries - 1) = .error e →
      get_json_from_pdf_via_gemini f max_retries = (some (.error e), max_retries - 1)) := by
  refine ⟨?_, ?_, ?_⟩
  · intro hfg
    exact gemini_loop_congr f g max_retries max_retries 0 0 (by omega) hfg
  · intro k a hk1 hkm herr hok
    have := gemini_loop_success f max_retries a (k - 1) 0 0 (by omega)
      (fun i hi => by simpa using herr i hi) (by simpa using hok)
    simpa [get_json_from_pdf_via_gemini] using this
  · intro e hm herr hlast
    have := gemini_loop_exhaust f max_retries e (max_retries - 1) 0 0 (by omega)
      (fun i hi => by simpa using herr i hi) (by simpa using hlast)
    simpa [get_json_from_pdf_via_gemini] using this

/-- Attempt outcomes that fail twice and succeed on the third attempt. -/
def exF : Nat → Except String JVal :=
  fun i => if i < 2 then .error "boom" else .ok (.obj [])

theorem gemini_retry_semantics_witness :
    get_json_from_pdf_via_gemini exF 3 = (some (.ok (.obj [])), 2) := by
  have h := (gemini_retry_semantics exF exF 3).2.1 3 (.obj []) (by omega) (by omega)
    (fun i hi => ⟨"boom", by unfold exF; rw [if_pos (by omega)]⟩) (by rfl)
  simpa using h

/-- The model response text of Scenario B. -/
def scenarioBText : String := "Sure! Here\x27s the JSON: \x7b\"name\":\"A\"\x7d done."

/-- C7: the greedy first-brace-to-last-brace extraction applied to the
Scenario B response text yields exactly the object text, and `json.loads`
parses it to the single-field object with name "A". -/
theorem gemini_brace_extraction_scenario :
    braceMatch scenarioBText = some "\x7b\"name\":\"A\"\x7d" ∧
    jsonLoads "\x7b\"name\":\"A\"\x7d" = some (.obj [("name", .str "A")]) :=
  ⟨rfl, rfl⟩

lemma pyUpper_eq_empty_iff (s : String) : pyUpper s = "" ↔ s = "" := by
  rw [String.ext_iff, String.ext_iff]
  show s.toList.map Char.toUpper = [] ↔ _
  rw [List.map_eq_nil_iff]
  exact Iff.rfl

lemma pyUpper_empty : pyUpper "" = "" := rfl

/-- The review submission of Scenario D: slot 3 has blank form and name
but a non-blank dosage. -/
def scenarioDForm : Form := [("TAB3_form", ""), ("TAB3_name", ""), ("DOSAGE3", "500MG")]

/-- C8: a medication slot contributes a row iff at least one of its five
sub-fields is non-empty after trimming; the appended row upper-cases the
form tag, defaults dosage/freq/time individually to "N/A" when blank, and
leaves blank form/name as the empty string.  In particular Scenario D
(blank form and name, dosage "500MG") is appended with form = "" and
name = "". -/
theorem medrow_slot_semantics (form : Form) (i : Nat) :
    (medRow form i =
      if pyStrip (fget form (tabFormKey i) "") = "" ∧
         pyStrip (fget form (tabNameKey i) "") = "" ∧
         pyStrip (fget form (dosageKey i) "") = "" ∧
         pyStrip (fget form (freqKey i) "") = "" ∧
         pyStrip (fget form (tomKey i) "") = "" then none
      else some (.obj
        [("form", .str (pyUpper (pyStrip (fget form (tabFormKey i) "")))),
         ("name", .str (pyStrip (fget form (tabNameKey i) ""))),
         ("dosage", .str (if pyStrip (fget form (dosageKey i) "") == "" then "N/A"
                          else pyStrip (fget form (dosageKey i) ""))),
         ("freq", .str (if pyStrip (fget form (freqKey i) "") == "" then "N/A"
                        else pyStrip (fget form (freqKey i) ""))),
         ("time", .str (if pyStrip (fget form (tomKey i) "") == "" then "N/A"
                        else pyStrip (fget form (tomKey i) "")))])) ∧
    medRow scenarioDForm 3 =
      some (.obj [("form", .str ""), ("name", .str ""), ("dosage", .str "500MG"),
                  ("freq", .str "N/A"), ("time", .str "N/A")]) := by
  refine ⟨?_, rfl⟩
  by_cases hB : pyStrip (fget form (tabFormKey i) "") = "" ∧
      pyStrip (fget form (tabNameKey i) "") = "" ∧
      pyStrip (fget form (dosageKey i) "") = "" ∧
      pyStrip (fget form (freqKey i) "") = "" ∧
      pyStrip (fget form (tomKey i) "") = ""
  · obtain ⟨h1, h2, h3, h4, h5⟩ := hB
    rw [if_pos ⟨h1, h2, h3, h4, h5⟩]
    simp [medRow, h1, h2, h3, h4, h5, pyUpper_empty]
  · have hA : (pyUpper (pyStrip (fget form (tabFormKey i) "")) != "" ||
        pyStrip (fget form (tabNameKey i) "") != "" ||
        pyStrip (fget form (dosageKey i) "") != "" ||
        pyStrip (fget form (freqKey i) "") != "" ||
        pyStrip (fget form (tomKey i) "") != "") = true := by
      by_contra hco
      simp only [Bool.not_eq_true, Bool.or_eq_false_iff, bne_eq_false_iff_eq] at hco
      obtain ⟨⟨⟨⟨ha, hb⟩, hc⟩, hd⟩, he⟩ := hco
      exact hB ⟨(pyUpper_eq_empty_iff _).mp ha, hb, hc, hd, he⟩
    rw [if_neg hB]
    simp only [medRow]
    rw [hA]
    rfl

/-- A medication entry whose `freq` is present but blank. -/
def medBlankFreq : JObj := [("freq", .str "")]

/-- Counterexample to C9: a medication with a present-but-blank `freq`
yields `FREQ1 = ""`, not the claimed `"N/A"` — `.get("freq", "N/A")`
substitutes only for an absent key, never for a blank value. -/
theorem slot_context_blank_freq_cex :
    slotContext [.obj medBlankFreq] 0 =
      some ⟨"", .str "N/A", .str "", .str "N/A"⟩ ∧
    JVal.str "" ≠ JVal.str "N/A" := by
  refine ⟨rfl, ?_⟩
  intro h
  injection h with h2
  exact absurd h2 (by decide)

lemma slotContext_inv {meds : List JVal} {i : Nat} {out : SlotOut}
    (h : slotContext meds i = some out) :
    ∃ med fs ns, asObj (meds.getD i (.obj [])) = some med ∧
      asStr (jget med "form" (.str "")) = some fs ∧
      asStr (jget med "name" (.str "")) = some ns ∧
      out = ⟨(if pyStrip fs != "" || pyStrip ns != "" then
                pyStrip (pyStrip fs ++ " " ++ pyStrip ns) else ""),
             (if ((jgetOpt med "dosage").getD .null).falsy then JVal.str "N/A"
              else jget med "dosage" (.str "N/A")),
             jget med "freq" (.str "N/A"), jget med "time" (.str "N/A")⟩ := by
  unfold slotContext at h
  simp only [bind, Option.bind_eq_some, pure, Option.some_inj] at h
  obtain ⟨med, hmed, fs, hfs, ns, hns, hout⟩ := h
  exact ⟨med, fs, ns, hmed, hfs, hns, hout.symm⟩

/-- C9 amended: `TAB{i}` is the stripped space-join of form and name and
`DOSAGE{i}` falls back to "N/A" when the dosage value is absent *or*
falsy, but `FREQ{i}`/`TOM{i}` fall back to "N/A" only when the key is
absent (in particular for an empty slot); a present blank value is
emitted unchanged. -/
theorem slot_context_defaults_amended :
    (∀ (med : JObj) (out : SlotOut), slotContext [.obj med] 0 = some out →
      (∀ fr, jgetOpt med "freq" = some (.str fr) → out.freq = .str fr) ∧
      (jgetOpt med "freq" = none → out.freq = .str "N/A") ∧
      (∀ t, jgetOpt med "time" = some (.str t) → out.tom = .str t) ∧
      (jgetOpt med "time" = none → out.tom = .str "N/A") ∧
      (∀ d, jgetOpt med "dosage" = some (.str d) →
        out.dosage = .str (if d == "" then "N/A" else d)) ∧
      (jgetOpt med "dosage" = none → out.dosage = .str "N/A") ∧
      (∀ fs ns, jgetOpt med "form" = some (.str fs) → jgetOpt med "name" = some (.str ns) →
        out.tab = (if pyStrip fs != "" || pyStrip ns != "" then
          pyStrip (pyStrip fs ++ " " ++ pyStrip ns) else ""))) ∧
    (∀ (meds : List JVal) (i : Nat), meds.length ≤ i →
      slotContext meds i = some ⟨"", .str "N/A", .str "N/A", .str "N/A"⟩) := by
  constructor
  · intro med out h
    obtain ⟨med2, fs, ns, hmed, hfs, hns, hout⟩ := slotContext_inv h
    have hmed2 : med2 = med := by
      simp only [List.getD, List.getD_cons_zero] at hmed
      simpa [asObj] using hmed.symm
    subst hmed2
    subst hout
    refine ⟨?_, ?_, ?_, ?_, ?_, ?_, ?_⟩
    · intro fr hfr; simp [jget, hfr]
    · intro hfr; simp [jget, hfr]
    · intro t ht; simp [jget, ht]
    · intro ht; simp [jget, ht]
    · intro d hd
      by_cases hde : d = ""
      · subst hde; simp [jget, hd, JVal.falsy]
      · simp [jget, hd, JVal.falsy, hde]
    · intro hd; simp [jget, hd, JVal.falsy]
    · intro fs2 ns2 hf2 hn2
      have hfs2 : fs = fs2 := by
        rw [jget, hf2] at hfs
        simpa [asStr] using hfs.symm
      have hns2 : ns = ns2 := by
        rw [jget, hn2] at hns
        simpa [asStr] using hns.symm
      subst hfs2
      subst hns2
      rfl
  · intro meds i hi
    unfold slotContext
    rw [List.getD_eq_default _ _ hi]
    rfl

theorem slot_context_defaults_amended_witness :
    slotContext [] 0 = some ⟨"", .str "N/A", .str "N/A", .str "N/A"⟩ :=
  slot_context_defaults_amended.2 [] 0 (by simp)
